import Mathlib

/-!
Shallow embedding of the commandeer record/replay engine
(crates `commandeer-test` and `commandeer-cli`).

Modelling conventions:
* Rust `String` is Lean `String`; `Vec<String>` is `List String`; `i32`
  exit codes are `Int` (the source only compares and forwards them).
* `HashMap<String, Vec<CommandInvocation>>` is an association list
  `List (String × List CommandInvocation)`; `get` returns the first
  binding of the key and `entry(key).or_default().push(v)` updates the
  first binding in place, which agrees with the hash map because `add`
  keeps keys unique.
* The fixture file and the process side effects are explicit state `FS`:
  the file's contents, whether the parent directories exist, and a ghost
  log of every attempted process spawn.
* serde_json is abstracted by classifying file contents: `FixtureFile.stored rc`
  stands for text that parses as the store `rc` (what `save_recordings`
  writes), `FixtureFile.blank s` for text whose trim is empty, and
  `FixtureFile.malformed s` for text that fails JSON parsing.
* Spawning the real program is a parameter `ExecEnv`; `none` is a spawn
  failure (`Command::output` returning `Err`). `String::from_utf8_lossy`
  is absorbed into the environment: the captured stdout/stderr arrive
  already decoded as text.
-/

/-- One captured execution: `CommandInvocation` in commandeer-test/src/lib.rs. -/
structure CommandInvocation where
  binary_name : String
  args : List String
  stdout : String
  stderr : String
  exit_code : Int
deriving DecidableEq, Repr

/-- The fixture store: `RecordedCommands` in commandeer-test/src/lib.rs,
its `HashMap` modelled as an association list with unique keys. -/
structure RecordedCommands where
  commands : List (String × List CommandInvocation)
deriving DecidableEq, Repr

namespace RecordedCommands

/-- The Rust `Default` derive: an empty map. -/
def empty : RecordedCommands := ⟨[]⟩

/-- `generate_key` in lib.rs: `format!("{binary_name}:{}", args.join(" "))`. -/
def generate_key (binary_name : String) (args : List String) : String :=
  binary_name ++ ":" ++ String.intercalate " " args

/-- `HashMap::get` on the association list: first binding of the key. -/
def lookupKey : List (String × List CommandInvocation) → String → Option (List CommandInvocation)
  | [], _ => none
  | (k, vs) :: rest, key => if k = key then some vs else lookupKey rest key

/-- `self.commands.entry(key).or_default().push(invocation)`: append to the
binding of `key`, creating it at the end when absent. -/
def updateEntry : List (String × List CommandInvocation) → String → CommandInvocation →
    List (String × List CommandInvocation)
  | [], key, inv => [(key, [inv])]
  | (k, vs) :: rest, key, inv =>
    if k = key then (k, vs ++ [inv]) :: rest
    else (k, vs) :: updateEntry rest key inv

/-- `HashMap::get` lifted to the store. -/
def get (rc : RecordedCommands) (key : String) : Option (List CommandInvocation) :=
  lookupKey rc.commands key

/-- `add_invocation` in lib.rs. -/
def add_invocation (rc : RecordedCommands) (invocation : CommandInvocation) : RecordedCommands :=
  ⟨updateEntry rc.commands (generate_key invocation.binary_name invocation.args) invocation⟩

/-- `find_invocation` in lib.rs: `self.commands.get(&key)?.first()`. -/
def find_invocation (rc : RecordedCommands) (binary_name : String) (args : List String) :
    Option CommandInvocation :=
  (rc.get (generate_key binary_name args)).bind List.head?

end RecordedCommands

/-- Contents of the fixture file, with serde_json abstracted into the
classification of the text (see the module docstring). -/
inductive FixtureFile where
  | absent
  | blank (s : String)
  | stored (rc : RecordedCommands)
  | malformed (s : String)
deriving DecidableEq, Repr

/-- The file-system and process state threaded through the operations:
the fixture file, whether its parent directories exist, and a ghost log
of attempted spawns of the real program. -/
structure FS where
  file : FixtureFile
  parentDirsExist : Bool
  spawned : List (String × List String)
deriving DecidableEq, Repr

/-- Errors the engine surfaces (`anyhow::Error` in the source). -/
inductive CmdError where
  | malformedJson
  | spawnFailure
deriving DecidableEq, Repr

/-- `load_recordings` in lib.rs: a missing file yields the default store
after creating parent directories; empty or whitespace-only contents
yield the default store; otherwise parse, and a parse failure is an
error. -/
def load_recordings (fs : FS) : Except CmdError RecordedCommands × FS :=
  match fs.file with
  | .absent => (.ok RecordedCommands.empty, { fs with parentDirsExist := true })
  | .blank _ => (.ok RecordedCommands.empty, fs)
  | .stored rc => (.ok rc, fs)
  | .malformed _ => (.error .malformedJson, fs)

/-- `save_recordings` in lib.rs: serialize and overwrite the file. -/
def save_recordings (fs : FS) (recordings : RecordedCommands) : FS :=
  { fs with file := .stored recordings }

/-- What spawning the real program returns: captured stdout and stderr
(already decoded, see module docstring) and `status.code()`, which is
`none` when the process was terminated by a signal. -/
structure ProcessOutput where
  stdout : String
  stderr : String
  code : Option Int
deriving DecidableEq, Repr

/-- The environment of real programs: `none` models a spawn failure. -/
def ExecEnv : Type := String → List String → Option ProcessOutput

/-- `record_command` in lib.rs: load, spawn, build the invocation
(`unwrap_or(-1)` on the exit code), append, save. -/
def record_command (exec : ExecEnv) (fs : FS) (command : String) (args : List String) :
    Except CmdError CommandInvocation × FS :=
  match load_recordings fs with
  | (.error e, fs1) => (.error e, fs1)
  | (.ok recordings, fs1) =>
    let fs2 := { fs1 with spawned := fs1.spawned ++ [(command, args)] }
    match exec command args with
    | none => (.error .spawnFailure, fs2)
    | some out =>
      let invocation : CommandInvocation :=
        ⟨command, args, out.stdout, out.stderr, out.code.getD (-1)⟩
      (.ok invocation, save_recordings fs2 (recordings.add_invocation invocation))

/-- `replay_command` in lib.rs: load, then `find_invocation`. -/
def replay_command (fs : FS) (command : String) (args : List String) :
    Except CmdError (Option CommandInvocation) × FS :=
  match load_recordings fs with
  | (.error e, fs1) => (.error e, fs1)
  | (.ok recordings, fs1) => (.ok (recordings.find_invocation command args), fs1)

/-- The observable behaviour of the CLI process: what `output_invocation`
prints to stdout and stderr, and the code passed to `exit_with_code`. -/
structure ProcessExit where
  stdout : String
  stderr : String
  exit_code : Int
deriving DecidableEq, Repr

/-- Modelled from the spec: the truncating variant of `record_command`.
`record_mode` in commandeer-test/src/main.rs passes a `truncate` flag to
`record_command`, but the variant of `record_command` accepting it is not
among the sources (lib.rs has the three-argument form only). Per the spec,
when the flag is set, step 1 becomes "start from an empty store" instead
of loading the existing recordings; the remaining steps are unchanged. -/
def record_command_truncated (exec : ExecEnv) (truncate : Bool) (fs : FS)
    (command : String) (args : List String) :
    Except CmdError CommandInvocation × FS :=
  if truncate then
    let recordings := RecordedCommands.empty
    let fs1 := { fs with spawned := fs.spawned ++ [(command, args)] }
    match exec command args with
    | none => (.error .spawnFailure, fs1)
    | some out =>
      let invocation : CommandInvocation :=
        ⟨command, args, out.stdout, out.stderr, out.code.getD (-1)⟩
      (.ok invocation, save_recordings fs1 (recordings.add_invocation invocation))
  else
    record_command exec fs command args

/-- `record_mode` in commandeer-test/src/main.rs: record, print the captured
output, exit with the captured code. -/
def record_mode (exec : ExecEnv) (truncate : Bool) (fs : FS)
    (command : String) (args : List String) : Except CmdError ProcessExit × FS :=
  match record_command_truncated exec truncate fs command args with
  | (.error e, fs1) => (.error e, fs1)
  | (.ok invocation, fs1) =>
    (.ok ⟨invocation.stdout, invocation.stderr, invocation.exit_code⟩, fs1)

/-- `replay_mode` in commandeer-cli/src/main.rs (identical in
commandeer-test/src/main.rs): on a hit, reproduce the captured output and
exit with the captured code; on a miss, print the diagnostic
`eprintln!("No recorded invocation found for: {command} {}", args.join(" "))`
and exit with code 1. -/
def replay_mode (fs : FS) (command : String) (args : List String) :
    Except CmdError ProcessExit × FS :=
  match replay_command fs command args with
  | (.error e, fs1) => (.error e, fs1)
  | (.ok (some invocation), fs1) =>
    (.ok ⟨invocation.stdout, invocation.stderr, invocation.exit_code⟩, fs1)
  | (.ok none, fs1) =>
    (.ok ⟨"", "No recorded invocation found for: " ++ command ++ " "
      ++ String.intercalate " " args ++ "\n", 1⟩, fs1)

example : RecordedCommands.generate_key "echo" ["hello"] = "echo:hello" := by decide

example :
    (RecordedCommands.empty.add_invocation ⟨"echo", ["hello"], "hello\n", "", 0⟩).find_invocation
      "echo" ["hello"] = some ⟨"echo", ["hello"], "hello\n", "", 0⟩ := by decide

namespace RecordedCommands

/-- The key of an invocation, as `add_invocation` computes it. -/
def invKey (invocation : CommandInvocation) : String :=
  generate_key invocation.binary_name invocation.args

lemma lookupKey_updateEntry_self (l : List (String × List CommandInvocation))
    (key : String) (inv : CommandInvocation) :
    lookupKey (updateEntry l key inv) key = some ((lookupKey l key).getD [] ++ [inv]) := by
  induction l with
  | nil => simp [updateEntry, lookupKey]
  | cons p rest ih =>
    obtain ⟨k, vs⟩ := p
    by_cases h : k = key
    · subst h
      simp [updateEntry, lookupKey]
    · simp [updateEntry, lookupKey, h, ih]

lemma lookupKey_updateEntry_other (l : List (String × List CommandInvocation))
    (key : String) (inv : CommandInvocation) (k : String) (h : k ≠ key) :
    lookupKey (updateEntry l key inv) k = lookupKey l k := by
  induction l with
  | nil => simp [updateEntry, lookupKey, Ne.symm h]
  | cons p rest ih =>
    obtain ⟨k', vs⟩ := p
    by_cases h2 : k' = key
    · subst h2
      simp [updateEntry, lookupKey, Ne.symm h]
    · by_cases h3 : k' = k
      · subst h3
        simp [updateEntry, lookupKey, h2]
      · simp [updateEntry, lookupKey, h2, h3, ih]

lemma get_add_self (rc : RecordedCommands) (inv : CommandInvocation) :
    (rc.add_invocation inv).get (invKey inv) = some ((rc.get (invKey inv)).getD [] ++ [inv]) :=
  lookupKey_updateEntry_self rc.commands (invKey inv) inv

lemma get_add_other (rc : RecordedCommands) (inv : CommandInvocation)
    (k : String) (h : k ≠ invKey inv) :
    (rc.add_invocation inv).get k = rc.get k :=
  lookupKey_updateEntry_other rc.commands (invKey inv) inv k h

lemma find_invocation_eq_none_iff (rc : RecordedCommands) (b : String) (a : List String) :
    rc.find_invocation b a = none ↔
      rc.get (generate_key b a) = none ∨ rc.get (generate_key b a) = some [] := by
  unfold find_invocation
  cases h : rc.get (generate_key b a) with
  | none => simp
  | some l =>
    cases l with
    | nil => simp
    | cons v t => simp

lemma find_invocation_first (rc : RecordedCommands) (b : String) (a : List String)
    (v : CommandInvocation) (l : List CommandInvocation)
    (h : rc.get (generate_key b a) = some (v :: l)) :
    rc.find_invocation b a = some v := by
  unfold find_invocation
  rw [h]
  rfl

end RecordedCommands

open RecordedCommands in
/-- C9: `add_invocation` appends the invocation to the end of the sequence
stored under its computed key, creating that sequence when the key is
absent, with no deduplication (an already-present identical invocation is
stored again), and leaves the sequence under every other key unchanged. -/
theorem add_invocation_append_frame (rc : RecordedCommands) (inv : CommandInvocation) :
    (rc.add_invocation inv).get (generate_key inv.binary_name inv.args)
      = some ((rc.get (generate_key inv.binary_name inv.args)).getD [] ++ [inv]) ∧
    (∀ k, k ≠ generate_key inv.binary_name inv.args →
      (rc.add_invocation inv).get k = rc.get k) :=
  ⟨get_add_self rc inv, fun k hk => get_add_other rc inv k hk⟩

open RecordedCommands in
/-- Witness for C9: appending a duplicate of an already-recorded invocation
stores it a second time, and an unrelated key is untouched. -/
theorem add_invocation_append_frame_witness :
    (((⟨[("echo:hi", [⟨"echo", ["hi"], "a", "", 0⟩]),
        ("ls:", [⟨"ls", [], "b", "", 0⟩])]⟩ : RecordedCommands).add_invocation
        ⟨"echo", ["hi"], "a", "", 0⟩).get "echo:hi"
      = some [⟨"echo", ["hi"], "a", "", 0⟩, ⟨"echo", ["hi"], "a", "", 0⟩]) ∧
    (((⟨[("echo:hi", [⟨"echo", ["hi"], "a", "", 0⟩]),
        ("ls:", [⟨"ls", [], "b", "", 0⟩])]⟩ : RecordedCommands).add_invocation
        ⟨"echo", ["hi"], "a", "", 0⟩).get "ls:"
      = some [⟨"ls", [], "b", "", 0⟩]) := by
  have h := add_invocation_append_frame
    (⟨[("echo:hi", [⟨"echo", ["hi"], "a", "", 0⟩]), ("ls:", [⟨"ls", [], "b", "", 0⟩])]⟩ :
      RecordedCommands) ⟨"echo", ["hi"], "a", "", 0⟩
  refine ⟨?_, ?_⟩
  · have h1 := h.1
    simpa using h1
  · have h2 := h.2 "ls:" (by decide)
    simpa using h2

open RecordedCommands in
/-- C2: `find_invocation` returns the first element of the sequence stored
under the computed key, and returns none exactly when the key is absent or
its sequence is empty; in particular, after recording two invocations with
different outputs under the same key, lookup returns the first recorded
invocation, never the second. -/
theorem find_invocation_first_match :
    (∀ (rc : RecordedCommands) (b : String) (a : List String)
        (v : CommandInvocation) (l : List CommandInvocation),
      rc.get (generate_key b a) = some (v :: l) → rc.find_invocation b a = some v) ∧
    (∀ (rc : RecordedCommands) (b : String) (a : List String),
      rc.find_invocation b a = none ↔
        rc.get (generate_key b a) = none ∨ rc.get (generate_key b a) = some []) ∧
    (∀ i1 i2 : CommandInvocation, invKey i2 = invKey i1 → i1.stdout ≠ i2.stdout →
      ((RecordedCommands.empty.add_invocation i1).add_invocation i2).find_invocation
          i1.binary_name i1.args = some i1 ∧
      ((RecordedCommands.empty.add_invocation i1).add_invocation i2).find_invocation
          i1.binary_name i1.args ≠ some i2) := by
  refine ⟨find_invocation_first, find_invocation_eq_none_iff, ?_⟩
  intro i1 i2 hkey hout
  have h1 : (RecordedCommands.empty.add_invocation i1).get (invKey i1) = some [i1] := by
    rw [get_add_self RecordedCommands.empty i1]
    rfl
  have h2 : ((RecordedCommands.empty.add_invocation i1).add_invocation i2).get (invKey i1)
      = some [i1, i2] := by
    have := get_add_self (RecordedCommands.empty.add_invocation i1) i2
    rw [hkey] at this
    rw [this, h1]
    rfl
  have hfind : ((RecordedCommands.empty.add_invocation i1).add_invocation i2).find_invocation
      i1.binary_name i1.args = some i1 :=
    find_invocation_first _ _ _ i1 [i2] h2
  refine ⟨hfind, ?_⟩
  rw [hfind]
  intro hc
  exact hout (congrArg CommandInvocation.stdout (Option.some.inj hc))

open RecordedCommands in
/-- Witness for C2: on a concrete store holding two recordings of
`echo hi` with different stdout, lookup returns the first. -/
theorem find_invocation_first_match_witness :
    ((RecordedCommands.empty.add_invocation ⟨"echo", ["hi"], "first", "", 0⟩).add_invocation
        ⟨"echo", ["hi"], "second", "", 0⟩).find_invocation "echo" ["hi"]
      = some ⟨"echo", ["hi"], "first", "", 0⟩ ∧
    ((⟨[("k", [])]⟩ : RecordedCommands).find_invocation "k" [] = none ↔
      (⟨[("k", [])]⟩ : RecordedCommands).get (generate_key "k" []) = none ∨
      (⟨[("k", [])]⟩ : RecordedCommands).get (generate_key "k" []) = some []) := by
  constructor
  · exact (find_invocation_first_match.2.2 ⟨"echo", ["hi"], "first", "", 0⟩
      ⟨"echo", ["hi"], "second", "", 0⟩ (by decide) (by decide)).1
  · exact find_invocation_first_match.2.1 ⟨[("k", [])]⟩ "k" []

namespace RecordedCommands

/-- The store consistency invariant: every key present maps to a non-empty
sequence, and every invocation stored under a key has that key as its
computed key. -/
def StoreWF (rc : RecordedCommands) : Prop :=
  ∀ p ∈ rc.commands, p.2 ≠ [] ∧ ∀ inv ∈ p.2, invKey inv = p.1

lemma updateEntry_wf (l : List (String × List CommandInvocation)) (inv : CommandInvocation)
    (hl : ∀ p ∈ l, p.2 ≠ [] ∧ ∀ i ∈ p.2, invKey i = p.1) :
    ∀ p ∈ updateEntry l (invKey inv) inv, p.2 ≠ [] ∧ ∀ i ∈ p.2, invKey i = p.1 := by
  induction l with
  | nil =>
    intro p hp
    simp only [updateEntry, List.mem_singleton] at hp
    subst hp
    exact ⟨by simp, by simp⟩
  | cons q rest ih =>
    obtain ⟨k, vs⟩ := q
    intro p hp
    by_cases h : k = invKey inv
    · subst h
      simp only [updateEntry, if_pos, List.mem_cons] at hp
      rcases hp with h1 | h1
      · subst h1
        refine ⟨by simp, fun i hi => ?_⟩
        rcases List.mem_append.mp hi with h2 | h2
        · exact (hl (invKey inv, vs) (List.mem_cons_self _ _)).2 i h2
        · rw [List.mem_singleton.mp h2]
      · exact hl p (List.mem_cons_of_mem _ h1)
    · simp only [updateEntry, if_neg h, List.mem_cons] at hp
      rcases hp with h1 | h1
      · subst h1
        exact hl (k, vs) (List.mem_cons_self _ _)
      · exact ih (fun q hq => hl q (List.mem_cons_of_mem _ hq)) p h1

lemma add_invocation_wf (rc : RecordedCommands) (inv : CommandInvocation)
    (h : StoreWF rc) : StoreWF (rc.add_invocation inv) :=
  updateEntry_wf rc.commands inv h

end RecordedCommands

open RecordedCommands in
/-- C10: starting from the empty store, after any sequence of
`add_invocation` operations, every key present in the store maps to a
non-empty sequence, and every invocation stored under a key `k` has
`generate_key` of its binary name and args equal to `k`. -/
theorem store_invariant_reachable (invs : List CommandInvocation) :
    StoreWF (invs.foldl RecordedCommands.add_invocation RecordedCommands.empty) := by
  have hgen : ∀ (rc : RecordedCommands), StoreWF rc →
      StoreWF (invs.foldl RecordedCommands.add_invocation rc) := by
    induction invs with
    | nil => intro rc h; exact h
    | cons i rest ih =>
      intro rc h
      exact ih (rc.add_invocation i) (add_invocation_wf rc i h)
  exact hgen RecordedCommands.empty (by intro p hp; simp [RecordedCommands.empty] at hp)

/-- C6: `load_recordings` returns the empty store without error when the
path does not exist (after ensuring the parent directories exist) and when
the file exists but its contents are empty or whitespace-only; when the
contents are malformed JSON, loading fails with an error. -/
theorem load_recordings_cases (fs : FS) :
    (fs.file = FixtureFile.absent →
      load_recordings fs
        = (Except.ok RecordedCommands.empty, { fs with parentDirsExist := true })) ∧
    (∀ s, fs.file = FixtureFile.blank s →
      load_recordings fs = (Except.ok RecordedCommands.empty, fs)) ∧
    (∀ s, fs.file = FixtureFile.malformed s →
      (load_recordings fs).1 = Except.error CmdError.malformedJson) := by
  obtain ⟨file, d, sp⟩ := fs
  refine ⟨fun h => ?_, fun s h => ?_, fun s h => ?_⟩ <;>
    (simp only at h; subst h; rfl)

/-- Witness for C6: loading a missing file creates the parent directories
and yields the empty store; blank contents yield the empty store; contents
that are not JSON are rejected. -/
theorem load_recordings_cases_witness :
    load_recordings ⟨FixtureFile.absent, false, []⟩
      = (Except.ok RecordedCommands.empty, ⟨FixtureFile.absent, true, []⟩) ∧
    load_recordings ⟨FixtureFile.blank "  \n", true, []⟩
      = (Except.ok RecordedCommands.empty, ⟨FixtureFile.blank "  \n", true, []⟩) ∧
    (load_recordings ⟨FixtureFile.malformed "not json", true, []⟩).1
      = Except.error CmdError.malformedJson :=
  ⟨(load_recordings_cases ⟨FixtureFile.absent, false, []⟩).1 rfl,
   (load_recordings_cases ⟨FixtureFile.blank "  \n", true, []⟩).2.1 "  \n" rfl,
   (load_recordings_cases ⟨FixtureFile.malformed "not json", true, []⟩).2.2 "not json" rfl⟩

/-- C8: `replay_command` only loads the store and looks the invocation up:
it spawns no process (the spawn log is unchanged), it never writes the
fixture file (its contents are unchanged), and on a successful load its
result is exactly `find_invocation` on the loaded store. -/
theorem replay_command_frame (fs : FS) (command : String) (args : List String) :
    (replay_command fs command args).2.file = fs.file ∧
    (replay_command fs command args).2.spawned = fs.spawned ∧
    (∀ rc, (load_recordings fs).1 = Except.ok rc →
      (replay_command fs command args).1
        = Except.ok (rc.find_invocation command args)) := by
  obtain ⟨file, d, sp⟩ := fs
  cases file with
  | absent =>
    refine ⟨rfl, rfl, fun rc h => ?_⟩
    injection h with h2
    subst h2
    rfl
  | blank s =>
    refine ⟨rfl, rfl, fun rc h => ?_⟩
    injection h with h2
    subst h2
    rfl
  | stored rc0 =>
    refine ⟨rfl, rfl, fun rc h => ?_⟩
    injection h with h2
    subst h2
    rfl
  | malformed s =>
    exact ⟨rfl, rfl, fun rc h => Except.noConfusion h⟩

/-- Witness for C8: replaying against a concrete stored fixture leaves the
file and the spawn log as they were and returns the lookup result. -/
theorem replay_command_frame_witness :
    (replay_command ⟨FixtureFile.stored ⟨[("git:status", [])]⟩, true, []⟩
        "git" ["status"]).2.file = FixtureFile.stored ⟨[("git:status", [])]⟩ ∧
    (replay_command ⟨FixtureFile.stored ⟨[("git:status", [])]⟩, true, []⟩
        "git" ["status"]).1
      = Except.ok ((⟨[("git:status", [])]⟩ : RecordedCommands).find_invocation
          "git" ["status"]) :=
  ⟨(replay_command_frame ⟨FixtureFile.stored ⟨[("git:status", [])]⟩, true, []⟩
      "git" ["status"]).1,
   (replay_command_frame ⟨FixtureFile.stored ⟨[("git:status", [])]⟩, true, []⟩
      "git" ["status"]).2.2 ⟨[("git:status", [])]⟩ rfl⟩

/-- On a successful load, `replay_command` returns `find_invocation` on the
loaded store. -/
lemma replay_command_eval (fs : FS) (command : String) (args : List String)
    (rc : RecordedCommands) (hload : (load_recordings fs).1 = Except.ok rc) :
    (replay_command fs command args).1 = Except.ok (rc.find_invocation command args) := by
  obtain ⟨file, d, sp⟩ := fs
  cases file with
  | absent => injection hload with h2; subst h2; rfl
  | blank s => injection hload with h2; subst h2; rfl
  | stored rc0 => injection hload with h2; subst h2; rfl
  | malformed s => exact Except.noConfusion hload

/-- On a successful load and spawn, `record_command` returns the freshly
built invocation and saves the store extended with it. -/
lemma record_command_eval (exec : ExecEnv) (fs : FS) (command : String)
    (args : List String) (rc : RecordedCommands) (out : ProcessOutput)
    (hload : (load_recordings fs).1 = Except.ok rc)
    (hspawn : exec command args = some out) :
    record_command exec fs command args
      = (Except.ok ⟨command, args, out.stdout, out.stderr, out.code.getD (-1)⟩,
         save_recordings
           { (load_recordings fs).2 with
             spawned := (load_recordings fs).2.spawned ++ [(command, args)] }
           (rc.add_invocation
             ⟨command, args, out.stdout, out.stderr, out.code.getD (-1)⟩)) := by
  obtain ⟨file, d, sp⟩ := fs
  cases file with
  | absent =>
    injection hload with h2
    subst h2
    simp [record_command, load_recordings, hspawn]
  | blank s =>
    injection hload with h2
    subst h2
    simp [record_command, load_recordings, hspawn]
  | stored rc0 =>
    injection hload with h2
    subst h2
    simp [record_command, load_recordings, hspawn]
  | malformed s => exact Except.noConfusion hload

/-- On a failed spawn, `record_command` reports the spawn failure after
logging the attempt. -/
lemma record_command_spawn_fail (exec : ExecEnv) (fs : FS) (command : String)
    (args : List String) (rc : RecordedCommands)
    (hload : (load_recordings fs).1 = Except.ok rc)
    (hspawn : exec command args = none) :
    record_command exec fs command args
      = (Except.error CmdError.spawnFailure,
         { (load_recordings fs).2 with
           spawned := (load_recordings fs).2.spawned ++ [(command, args)] }) := by
  obtain ⟨file, d, sp⟩ := fs
  cases file with
  | absent =>
    injection hload with h2
    subst h2
    simp [record_command, load_recordings, hspawn]
  | blank s =>
    injection hload with h2
    subst h2
    simp [record_command, load_recordings, hspawn]
  | stored rc0 =>
    injection hload with h2
    subst h2
    simp [record_command, load_recordings, hspawn]
  | malformed s => exact Except.noConfusion hload

/-- C5: if spawning the real program fails during `record_command`, an
error is propagated to the caller (the result is never `ok`), nothing is
written to the fixture file (its contents are exactly what they were
before the call), and whenever the load itself succeeded the propagated
error is precisely the spawn failure. -/
theorem record_spawn_failure_frame (exec : ExecEnv) (fs : FS) (command : String)
    (args : List String) (hspawn : exec command args = none) :
    (record_command exec fs command args).2.file = fs.file ∧
    (∀ inv, (record_command exec fs command args).1 ≠ Except.ok inv) ∧
    (∀ rc, (load_recordings fs).1 = Except.ok rc →
      (record_command exec fs command args).1 = Except.error CmdError.spawnFailure) := by
  obtain ⟨file, d, sp⟩ := fs
  cases file with
  | absent =>
    have h := record_command_spawn_fail exec ⟨FixtureFile.absent, d, sp⟩
      command args RecordedCommands.empty rfl hspawn
    rw [h]
    exact ⟨rfl, fun inv hc => Except.noConfusion hc, fun rc _ => rfl⟩
  | blank s =>
    have h := record_command_spawn_fail exec ⟨FixtureFile.blank s, d, sp⟩
      command args RecordedCommands.empty rfl hspawn
    rw [h]
    exact ⟨rfl, fun inv hc => Except.noConfusion hc, fun rc _ => rfl⟩
  | stored rc0 =>
    have h := record_command_spawn_fail exec ⟨FixtureFile.stored rc0, d, sp⟩
      command args rc0 rfl hspawn
    rw [h]
    exact ⟨rfl, fun inv hc => Except.noConfusion hc, fun rc _ => rfl⟩
  | malformed s =>
    exact ⟨rfl, fun inv hc => Except.noConfusion hc, fun rc hc => Except.noConfusion hc⟩

/-- Witness for C5: a spawn failure against an existing fixture leaves its
contents intact and surfaces the spawn error. -/
theorem record_spawn_failure_frame_witness :
    (record_command (fun _ _ => none)
        ⟨FixtureFile.stored ⟨[("ls:", [⟨"ls", [], "b", "", 0⟩])]⟩, true, []⟩
        "nosuchcmd" []).2.file
      = FixtureFile.stored ⟨[("ls:", [⟨"ls", [], "b", "", 0⟩])]⟩ ∧
    (record_command (fun _ _ => none)
        ⟨FixtureFile.stored ⟨[("ls:", [⟨"ls", [], "b", "", 0⟩])]⟩, true, []⟩
        "nosuchcmd" []).1
      = Except.error CmdError.spawnFailure := by
  have h := record_spawn_failure_frame (fun _ _ => none)
    ⟨FixtureFile.stored ⟨[("ls:", [⟨"ls", [], "b", "", 0⟩])]⟩, true, []⟩
    "nosuchcmd" [] rfl
  exact ⟨h.1, h.2.2 ⟨[("ls:", [⟨"ls", [], "b", "", 0⟩])]⟩ rfl⟩

/-- When the lookup comes back empty, `replay_mode` prints the diagnostic
and exits with code 1. -/
lemma replay_mode_of_find_none (fs : FS) (command : String) (args : List String)
    (h : (replay_command fs command args).1 = Except.ok none) :
    (replay_mode fs command args).1
      = Except.ok ⟨"", "No recorded invocation found for: " ++ command ++ " "
          ++ String.intercalate " " args ++ "\n", 1⟩ := by
  have hpair : replay_command fs command args
      = (Except.ok none, (replay_command fs command args).2) := Prod.ext h rfl
  unfold replay_mode
  rw [hpair]

/-- C4: for every command name and argument vector with no recorded
invocation under the computed key (including when the fixture file does
not exist), `replay_mode` writes the diagnostic naming the unmatched
command and arguments to stderr, prints nothing to stdout, and terminates
with exit code 1. -/
theorem replay_mode_miss_exit_one (fs : FS) (command : String) (args : List String)
    (rc : RecordedCommands)
    (hload : (load_recordings fs).1 = Except.ok rc)
    (hmiss : rc.find_invocation command args = none) :
    (replay_mode fs command args).1
      = Except.ok ⟨"", "No recorded invocation found for: " ++ command ++ " "
          ++ String.intercalate " " args ++ "\n", 1⟩ := by
  have h1 : (replay_command fs command args).1 = Except.ok none := by
    rw [replay_command_eval fs command args rc hload, hmiss]
  exact replay_mode_of_find_none fs command args h1

/-- Witness for C4: replaying `git --version` against a nonexistent
fixture file reports the miss and exits with code 1. -/
theorem replay_mode_miss_exit_one_witness :
    (replay_mode ⟨FixtureFile.absent, false, []⟩ "git" ["--version"]).1
      = Except.ok ⟨"", "No recorded invocation found for: git --version\n", 1⟩ := by
  have h := replay_mode_miss_exit_one ⟨FixtureFile.absent, false, []⟩ "git" ["--version"]
    RecordedCommands.empty rfl rfl
  rw [h]
  have hs : ("No recorded invocation found for: " ++ "git" ++ " "
      ++ String.intercalate " " ["--version"] ++ "\n" : String)
      = "No recorded invocation found for: git --version\n" := by decide
  rw [hs]

open RecordedCommands in
/-- C3: invoking the record operation with the truncation flag set against
a fixture file that already contains entries discards all prior entries
(the recording starts from the empty store), so the resulting fixture
stores exactly the one new invocation under its computed key. -/
theorem record_truncate_only_new (exec : ExecEnv) (fs : FS) (command : String)
    (args : List String) (out : ProcessOutput)
    (hspawn : exec command args = some out) :
    (record_command_truncated exec true fs command args).1
      = Except.ok ⟨command, args, out.stdout, out.stderr, out.code.getD (-1)⟩ ∧
    (record_command_truncated exec true fs command args).2.file
      = FixtureFile.stored ⟨[(generate_key command args,
          [⟨command, args, out.stdout, out.stderr, out.code.getD (-1)⟩])]⟩ := by
  constructor <;>
    simp [record_command_truncated, save_recordings, hspawn, add_invocation,
      RecordedCommands.empty, updateEntry]

open RecordedCommands in
/-- Witness for C3: truncated recording against a fixture that already
holds an entry leaves only the freshly recorded invocation. -/
theorem record_truncate_only_new_witness :
    (record_command_truncated (fun _ _ => some ⟨"hello\n", "", some 0⟩) true
        ⟨FixtureFile.stored ⟨[("old:", [⟨"old", [], "x", "", 0⟩])]⟩, true, []⟩
        "echo" ["hello"]).2.file
      = FixtureFile.stored ⟨[("echo:hello",
          [⟨"echo", ["hello"], "hello\n", "", 0⟩])]⟩ := by
  have h := record_truncate_only_new (fun _ _ => some ⟨"hello\n", "", some 0⟩)
    ⟨FixtureFile.stored ⟨[("old:", [⟨"old", [], "x", "", 0⟩])]⟩, true, []⟩
    "echo" ["hello"] ⟨"hello\n", "", some 0⟩ rfl
  rw [h.2]
  have hk : generate_key "echo" ["hello"] = "echo:hello" := by decide
  rw [hk]
  rfl

open RecordedCommands in
/-- Adding an invocation under a key with no prior recording makes
`find_invocation` return exactly that invocation. -/
lemma find_invocation_add_fresh (rc : RecordedCommands) (command : String)
    (args : List String) (inv : CommandInvocation)
    (hb : inv.binary_name = command) (ha : inv.args = args)
    (hmiss : rc.find_invocation command args = none) :
    (rc.add_invocation inv).find_invocation command args = some inv := by
  have hkey : invKey inv = generate_key command args := by
    rw [invKey, hb, ha]
  have hget := get_add_self rc inv
  rw [hkey] at hget
  rcases (find_invocation_eq_none_iff rc command args).mp hmiss with h | h
  · rw [h] at hget
    exact find_invocation_first _ command args inv [] hget
  · rw [h] at hget
    exact find_invocation_first _ command args inv [] hget

open RecordedCommands in
/-- C1 (amended): provided the fixture store holds no prior invocation
under the computed key (for instance a fresh or absent fixture) and the
spawn succeeds, performing `record_command` and then immediately
`replay_command` with the identical name and arguments against the same
fixture returns exactly the invocation just recorded, hence byte-identical
stdout, stderr, and exit code. Without the no-prior-recording proviso the
round-trip fails; see the counterexample. -/
theorem record_then_replay_roundtrip (exec : ExecEnv) (fs : FS) (command : String)
    (args : List String) (rc : RecordedCommands) (out : ProcessOutput)
    (hload : (load_recordings fs).1 = Except.ok rc)
    (hmiss : rc.find_invocation command args = none)
    (hspawn : exec command args = some out) :
    ∃ inv fs1,
      record_command exec fs command args = (Except.ok inv, fs1) ∧
      (replay_command fs1 command args).1 = Except.ok (some inv) := by
  have hrec := record_command_eval exec fs command args rc out hload hspawn
  refine ⟨⟨command, args, out.stdout, out.stderr, out.code.getD (-1)⟩,
    save_recordings
      { (load_recordings fs).2 with
        spawned := (load_recordings fs).2.spawned ++ [(command, args)] }
      (rc.add_invocation ⟨command, args, out.stdout, out.stderr, out.code.getD (-1)⟩),
    hrec, ?_⟩
  rw [replay_command_eval
    (save_recordings
      { (load_recordings fs).2 with
        spawned := (load_recordings fs).2.spawned ++ [(command, args)] }
      (rc.add_invocation ⟨command, args, out.stdout, out.stderr, out.code.getD (-1)⟩))
    command args
    (rc.add_invocation ⟨command, args, out.stdout, out.stderr, out.code.getD (-1)⟩) rfl]
  rw [find_invocation_add_fresh rc command args
    ⟨command, args, out.stdout, out.stderr, out.code.getD (-1)⟩ rfl rfl hmiss]

/-- Witness for C1 (amended): recording `echo hello` against a missing
fixture and replaying immediately returns the recorded invocation. -/
theorem record_then_replay_roundtrip_witness :
    ∃ inv fs1,
      record_command (fun _ _ => some ⟨"hello\n", "", some 0⟩)
          ⟨FixtureFile.absent, false, []⟩ "echo" ["hello"] = (Except.ok inv, fs1) ∧
      (replay_command fs1 "echo" ["hello"]).1 = Except.ok (some inv) :=
  record_then_replay_roundtrip (fun _ _ => some ⟨"hello\n", "", some 0⟩)
    ⟨FixtureFile.absent, false, []⟩ "echo" ["hello"]
    RecordedCommands.empty ⟨"hello\n", "", some 0⟩ rfl rfl rfl

/-- C1 counterexample: against a fixture store that already holds a
different recording under the same key, record-then-replay with identical
name and arguments returns the earlier recording, whose stdout is not
byte-identical to the one just recorded. -/
theorem record_then_replay_not_new :
    (record_command (fun _ _ => some ⟨"new", "", some 0⟩)
        ⟨FixtureFile.stored ⟨[("echo:hi", [⟨"echo", ["hi"], "old", "", 0⟩])]⟩, true, []⟩
        "echo" ["hi"]).1
      = Except.ok ⟨"echo", ["hi"], "new", "", 0⟩ ∧
    (replay_command
        (record_command (fun _ _ => some ⟨"new", "", some 0⟩)
          ⟨FixtureFile.stored ⟨[("echo:hi", [⟨"echo", ["hi"], "old", "", 0⟩])]⟩, true, []⟩
          "echo" ["hi"]).2
        "echo" ["hi"]).1
      = Except.ok (some ⟨"echo", ["hi"], "old", "", 0⟩) ∧
    ("old" : String) ≠ "new" := by
  refine ⟨rfl, ?_, by decide⟩
  have hk : RecordedCommands.generate_key "echo" ["hi"] = "echo:hi" := by decide
  simp [record_command, load_recordings, save_recordings, replay_command,
    RecordedCommands.add_invocation, RecordedCommands.updateEntry,
    RecordedCommands.find_invocation, RecordedCommands.get,
    RecordedCommands.lookupKey, hk]

open RecordedCommands in
/-- C7 (amended): the lookup key is a pure deterministic function of the
binary name and arguments — recomputing it on the same inputs yields the
same key — and for a fixed binary name, argument vectors with no
shared-separator ambiguity (their space-joins differ) yield differing
keys. Differing binary names can still collide when a name contains the
':' separator; see the counterexample. -/
theorem generate_key_deterministic (b : String) (a1 a2 : List String) :
    generate_key b a1 = generate_key b a1 ∧
    (String.intercalate " " a1 ≠ String.intercalate " " a2 →
      generate_key b a1 ≠ generate_key b a2) := by
  refine ⟨rfl, fun hne hkey => hne ?_⟩
  unfold generate_key at hkey
  have h2 := congrArg String.data hkey
  simp only [String.data_append, List.append_assoc] at h2
  exact String.ext (List.append_cancel_left (List.append_cancel_left h2))

open RecordedCommands in
/-- Witness for C7 (amended): `["a", "b"]` and `["a c"]` join differently,
so their keys under the same binary name differ. -/
theorem generate_key_deterministic_witness :
    generate_key "echo" ["a", "b"] ≠ generate_key "echo" ["a c"] :=
  (generate_key_deterministic "echo" ["a", "b"] ["a c"]).2 (by decide)

open RecordedCommands in
/-- C7 counterexample: the inputs `("a:b", ["c"])` and `("a", ["b:c"])`
differ and their argument vectors have no shared-separator ambiguity
(their space-joins differ), yet they produce the same key, because the
binary name may contain the ':' separator of the key format. -/
theorem generate_key_colon_collision :
    generate_key "a:b" ["c"] = generate_key "a" ["b:c"] ∧
    (("a:b", ["c"]) : String × List String) ≠ ("a", ["b:c"]) ∧
    String.intercalate " " ["c"] ≠ String.intercalate " " ["b:c"] := by
  refine ⟨by decide, by decide, by decide⟩
